import Mathlib

/-!
Shallow embedding of `bluesky_queueserver/manager/comms.py`:
the JSON-RPC pipe client (`PipeJsonRpcSendAsync`), the ZMQ request/reply
client (`ZMQCommSendAsync`) and its one-shot wrapper (`zmq_single_request`),
together with the message encoder `format_jsonrpc_msg`.

Python dictionaries holding JSON data are modelled by the inductive type
`JVal` (for values) and by association lists / structures with `Option`
fields (a `none` field models an absent key).  Python exceptions are
modelled with `Except`; the exception classes raised by the communication
layer are the constructors of `SendErr`.  Nondeterministic external events
(arrival of a response, expiry of a timeout, a ZMQ transport failure) are
passed to the embedded functions as explicit outcome arguments.
-/

namespace Comms

/-- JSON values, as carried in the Python dictionaries of `comms.py`. -/
inductive JVal where
  | null : JVal
  | bool (b : Bool) : JVal
  | num (n : Int) : JVal
  | str (s : String) : JVal
  | arr (xs : List JVal) : JVal
  | obj (fields : List (String × JVal)) : JVal

/-- `format_jsonrpc_msg(method, params=None, *, notification=False)`
(comms.py lines 64-82).  The result is the Python dict, modelled as an
association list so that key presence is observable.  The call
`str(uuid.uuid4())` is modelled by the explicit argument `freshId`:
a freshly generated token supplied by the environment. -/
def format_jsonrpc_msg (method : String) (params : Option JVal)
    (notification : Bool) (freshId : String) : List (String × JVal) :=
  let msg : List (String × JVal) := [("method", JVal.str method), ("jsonrpc", JVal.str "2.0")]
  let msg := match params with
    | some p => msg ++ [("params", p)]
    | none => msg
  if !notification then msg ++ [("id", JVal.str freshId)] else msg

/-- The `data` member of a JSON-RPC error object: `{"type": ..., "message": ...}`. -/
structure ErrData where
  type_ : String
  message : String

/-- The `error` member of a JSON-RPC response:
`{"code": <int>, "message": <string>, "data": {...}?}`. -/
structure RespError where
  code : Int
  message : String
  data : Option ErrData

/-- A decoded JSON-RPC response dict.  A `none` field models an absent key
(`"result" in response` is `result.isSome`, etc.). -/
structure Response where
  id : Option String
  result : Option JVal
  error : Option RespError

/-- The exceptions raised by the communication layer:
`CommTimeoutError`, `CommJsonRpcError(message, error_code, error_type)`
(comms.py lines 16-61) and plain `RuntimeError`. -/
inductive SendErr where
  | commTimeout (message : String) : SendErr
  | commJsonRpc (message : String) (error_code : Int) (error_type : String) : SendErr
  | runtimeError (message : String) : SendErr

/-- `str(ex)` for the exceptions of `SendErr`. -/
def SendErr.text : SendErr → String
  | .commTimeout m => m
  | .commJsonRpc m _ _ => m
  | .runtimeError m => m

/-- The response-interpretation block of `PipeJsonRpcSendAsync.send_msg`
(comms.py lines 342-362): `result` key returns the result, `error` key
raises `CommJsonRpcError` (type and message taken from `error["data"]`
when present), anything else raises `RuntimeError`. -/
def process_response (response : Response) : Except SendErr JVal :=
  match response.result with
  | some r => Except.ok r
  | none =>
    match response.error with
    | some e =>
      match e.data with
      | some d =>
        Except.error (SendErr.commJsonRpc (e.message ++ ": " ++ d.message) e.code d.type_)
      | none =>
        Except.error (SendErr.commJsonRpc e.message e.code "CommJsonRpcError")
    | none =>
      Except.error (SendErr.runtimeError
        "Message resulted in response with unknown format")

/-- The mutable per-instance state of `PipeJsonRpcSendAsync` that the
send/receive logic touches: the messages written to `self._conn`,
`self._expected_msg_id`, and `self._fut_comm`.  The future is modelled as
`Option (Option Response)`: `none` = no future, `some none` = a pending
future, `some (some r)` = a future completed with result `r`. -/
structure ClientState where
  conn_sent : List (List (String × JVal))
  expected_msg_id : Option String
  fut_comm : Option (Option Response)

/-- What `PipeJsonRpcSendAsync._response_received` did with an incoming
message. -/
inductive RecvAction where
  | completed (r : Response) : RecvAction
  | ignored_wrong_id : RecvAction
  | ignored_no_id : RecvAction
  | ignored_unsolicited : RecvAction

/-- `PipeJsonRpcSendAsync._response_received` (comms.py lines 373-398):
ignore the message when no request is expected, when it has no id, or when
the id differs from the expected one; on an exact match complete the
pending future with the response. -/
def response_received (s : ClientState) (response : Response) :
    ClientState × RecvAction :=
  match s.expected_msg_id with
  | some eid =>
    match response.id with
    | some rid =>
      if rid ≠ eid then
        (s, RecvAction.ignored_wrong_id)
      else
        ({ s with fut_comm := s.fut_comm.map (fun _ => some response) },
          RecvAction.completed response)
    | none => (s, RecvAction.ignored_no_id)
  | none => (s, RecvAction.ignored_unsolicited)

/-- What happened while `send_msg` was awaiting `self._fut_comm`:
either the future was completed with a response, or
`asyncio.wait_for` raised `asyncio.TimeoutError`. -/
inductive WaitOutcome where
  | response (r : Response) : WaitOutcome
  | timedOut : WaitOutcome

/-- `PipeJsonRpcSendAsync.send_msg` (comms.py lines 286-371), as the
sequential body executed under `self._lock_comm`: format and send the
message; a notification returns `None` at once; otherwise wait for the
correlated response (`outcome` says how the wait ended), interpret it via
the lines embedded in `process_response`, translate `asyncio.TimeoutError`
into `CommTimeoutError`, and in all cases run the `finally` block that
clears `self._fut_comm` and `self._expected_msg_id`. -/
def send_msg (s : ClientState) (method : String) (params : Option JVal)
    (notification : Bool) (freshId : String) (outcome : WaitOutcome) :
    Except SendErr (Option JVal) × ClientState :=
  let msg := format_jsonrpc_msg method params notification freshId
  let s := { s with conn_sent := s.conn_sent ++ [msg] }
  let final : ClientState → ClientState :=
    fun st => { st with fut_comm := none, expected_msg_id := none }
  if notification then
    (Except.ok none, final s)
  else
    match outcome with
    | WaitOutcome.timedOut =>
      (Except.error (SendErr.commTimeout
        ("Timeout while waiting for response to message: " ++ method)), final s)
    | WaitOutcome.response r =>
      ((process_response r).map some, final s)

/-! ## Concurrency model for `PipeJsonRpcSendAsync.send_msg`

`send_msg` runs on an asyncio event loop; several tasks may call it
concurrently.  Each call executes `async with self._lock_comm: ...`
(comms.py line 328).  We model the interleaving of `n` caller tasks as a
small-step transition system.  Each task is at a program counter:

* `outside`  — not inside the critical section of `send_msg`;
* `entered`  — holds `_lock_comm`, has sent the message, has not yet set
  the expected-id/future pair (between lines 328 and 336);
* `pending`  — holds the lock with `_expected_msg_id`/`_fut_comm` set,
  awaiting the response (lines 336-366);
* `cleanup`  — holds the lock, the `finally` block (lines 369-371) has
  run, the lock is not yet released.

A `deliver` step models the receiver thread handing an incoming message
to `_response_received` on the loop; it may interleave at any time. -/

/-- Program counter of one `send_msg` caller task. -/
inductive PC where
  | outside : PC
  | entered : PC
  | pending : PC
  | cleanup : PC
deriving DecidableEq

/-- Global state of one `PipeJsonRpcSendAsync` instance with `n` caller
tasks: the holder of `_lock_comm` (if any), the shared mutable client
state, and the program counter of every task. -/
structure SysState (n : Nat) where
  lock : Option (Fin n)
  client : ClientState
  pc : Fin n → PC

/-- One atomic step of the interleaved execution of `send_msg` callers and
the receive path. -/
inductive Step {n : Nat} : SysState n → SysState n → Prop where
  | acquire (s : SysState n) (i : Fin n)
      (hl : s.lock = none) (hp : s.pc i = PC.outside) :
      Step s ⟨some i, s.client, Function.update s.pc i PC.entered⟩
  | setSlot (s : SysState n) (i : Fin n) (mid : String)
      (hl : s.lock = some i) (hp : s.pc i = PC.entered) :
      Step s ⟨s.lock, ⟨s.client.conn_sent, some mid, some none⟩,
        Function.update s.pc i PC.pending⟩
  | notifFinish (s : SysState n) (i : Fin n)
      (hl : s.lock = some i) (hp : s.pc i = PC.entered) :
      Step s ⟨s.lock, ⟨s.client.conn_sent, none, none⟩,
        Function.update s.pc i PC.cleanup⟩
  | waitFinish (s : SysState n) (i : Fin n)
      (hl : s.lock = some i) (hp : s.pc i = PC.pending) :
      Step s ⟨s.lock, ⟨s.client.conn_sent, none, none⟩,
        Function.update s.pc i PC.cleanup⟩
  | release (s : SysState n) (i : Fin n)
      (hl : s.lock = some i) (hp : s.pc i = PC.cleanup) :
      Step s ⟨none, s.client, Function.update s.pc i PC.outside⟩
  | deliver (s : SysState n) (r : Response) :
      Step s ⟨s.lock, (response_received s.client r).1, s.pc⟩

/-- Initial state: lock free, nothing sent, no expected id, no future,
every task outside. -/
def initState (n : Nat) : SysState n :=
  ⟨none, ⟨[], none, none⟩, fun _ => PC.outside⟩

/-- States reachable from the initial state by interleaved steps. -/
def Reachable (n : Nat) (s : SysState n) : Prop :=
  Relation.ReflTransGen Step (initState n) s

/-- The inductive invariant: any task not `outside` is the lock holder,
and whenever the expected-id or the future slot is set, the lock is held
by a task at `pending`. -/
def Inv {n : Nat} (s : SysState n) : Prop :=
  (∀ i, s.pc i ≠ PC.outside → s.lock = some i) ∧
  ((s.client.expected_msg_id ≠ none ∨ s.client.fut_comm ≠ none) →
    ∃ i, s.lock = some i ∧ s.pc i = PC.pending)

/-! ## ZMQCommSendAsync and zmq_single_request -/

/-- The state of one `ZMQCommSendAsync` instance: the fixed server
address, the `raise_timeout_exceptions` policy fixed at construction, and
the current REQ socket, modelled by a generation counter (incremented each
time the socket is closed and reopened) and the address it connects to. -/
structure ZmqState where
  zmq_server_address : String
  raise_timeout_exceptions : Bool
  socket_gen : Nat
  socket_addr : String

/-- `zmq_server_address or "tcp://localhost:5555"` (comms.py line 466):
Python `or` also replaces an empty string by the default. -/
def addrOrDefault (zmq_server_address : Option String) : String :=
  match zmq_server_address with
  | none => "tcp://localhost:5555"
  | some a => if a = "" then "tcp://localhost:5555" else a

/-- `ZMQCommSendAsync.__init__` (comms.py lines 455-478), restricted to
the state the send path uses; `_zmq_socket_open` connects the fresh
socket to the server address. -/
def zmq_comm_init (zmq_server_address : Option String)
    (raise_timeout_exceptions : Bool) : ZmqState :=
  let addr := addrOrDefault zmq_server_address
  ⟨addr, raise_timeout_exceptions, 0, addr⟩

/-- `ZMQCommSendAsync._zmq_socket_restart` (comms.py lines 519-521):
close the socket and open a new one against the same stored address. -/
def zmq_socket_restart (s : ZmqState) : ZmqState :=
  { s with socket_gen := s.socket_gen + 1, socket_addr := s.zmq_server_address }

/-- How the `_zmq_communicate` exchange ended: the reply of the server
arrived, or some exception (timeout, transport error) was raised. -/
inductive CommOutcome where
  | reply (msg : JVal) : CommOutcome
  | failure (exText : String) : CommOutcome

/-- `ZMQCommSendAsync.send_message` (comms.py lines 526-568): send
`{method, params or {}}` and await one reply.  On any exception the socket
is restarted, then per the constructor-time `raise_timeout_exceptions`
flag either `CommTimeoutError` is raised or `{"success": False, "msg":
...}` is returned.  The per-call `raise_exceptions` keyword exists in the
signature but is never read by the body. -/
def send_message (s : ZmqState) (method : String) (params : Option JVal)
    (raise_exceptions : Bool) (outcome : CommOutcome) :
    Except SendErr JVal × ZmqState :=
  let _params := params.getD (JVal.obj [])
  let _msg_out := JVal.obj [("method", JVal.str method), ("params", _params)]
  match outcome with
  | CommOutcome.reply msg_in => (Except.ok msg_in, s)
  | CommOutcome.failure ex =>
    let s' := zmq_socket_restart s
    let errmsg := "ZMQ communication error: " ++ ex
    if s.raise_timeout_exceptions then
      (Except.error (SendErr.commTimeout errmsg), s')
    else
      (Except.ok (JVal.obj [("success", JVal.bool false), ("msg", JVal.str errmsg)]), s')

/-- `zmq_single_request` (comms.py lines 571-616).  `run` is the fate of
`asyncio.run(send_request(...))`: `Except.error ex` models an exception
escaping the event-loop run before the exchange result is stored (e.g. a
connect failure in the constructor of the client), `Except.ok outcome` models
the exchange of the transient client completing with `outcome`.  The client is
constructed with only `zmq_server_address`, so `raise_timeout_exceptions`
keeps its default `False`.  Any caught exception yields `(None, str(ex))`;
otherwise the received message is returned with an empty error string. -/
def zmq_single_request (method : String) (params : Option JVal)
    (zmq_server_address : Option String) (run : Except String CommOutcome) :
    Option JVal × String :=
  match run with
  | Except.error ex => (none, ex)
  | Except.ok outcome =>
    let zmq_to_manager := zmq_comm_init zmq_server_address false
    match send_message zmq_to_manager method params false outcome with
    | (Except.ok msg_received, _) => (some msg_received, "")
    | (Except.error e, _) => (none, e.text)

/-! ## Lemmas about the receive path -/

/-- `_response_received` never touches `_expected_msg_id` or the sent
log, and it cannot create a future out of nothing: it only completes an
already-existing one. -/
lemma response_received_state (c : ClientState) (r : Response) :
    (response_received c r).1.expected_msg_id = c.expected_msg_id ∧
    (response_received c r).1.conn_sent = c.conn_sent ∧
    ((response_received c r).1.fut_comm = none ↔ c.fut_comm = none) := by
  obtain ⟨cs, em, fc⟩ := c
  cases em with
  | none => simp [response_received]
  | some eid =>
    cases hr : r.id with
    | none => simp [response_received, hr]
    | some rid =>
      by_cases hne : rid = eid
      · subst hne
        refine ⟨by simp [response_received, hr], by simp [response_received, hr], ?_⟩
        cases fc <;> simp [response_received, hr]
      · simp [response_received, hr, hne]

/-- The invariant holds initially. -/
lemma inv_init (n : Nat) : Inv (initState n) := by
  constructor
  · intro i h
    exact absurd rfl h
  · intro h
    simp [initState] at h

/-- Every step preserves the invariant. -/
lemma inv_step {n : Nat} {s s' : SysState n} (hs : Inv s) (hstep : Step s s') :
    Inv s' := by
  obtain ⟨hmutex, hslot⟩ := hs
  cases hstep with
  | acquire i hl hp =>
    constructor
    · intro j hj
      by_cases hji : j = i
      · subst hji; rfl
      · exfalso
        rw [show (⟨some i, s.client, Function.update s.pc i PC.entered⟩ :
            SysState n).pc = Function.update s.pc i PC.entered from rfl,
          Function.update_noteq hji] at hj
        have h2 := hmutex j hj
        rw [hl] at h2
        exact Option.noConfusion h2
    · intro h
      exfalso
      obtain ⟨k, hk, _⟩ := hslot h
      rw [hl] at hk
      exact Option.noConfusion hk
  | setSlot i mid hl hp =>
    constructor
    · intro j hj
      by_cases hji : j = i
      · subst hji; exact hl
      · rw [show (⟨s.lock, ⟨s.client.conn_sent, some mid, some none⟩,
            Function.update s.pc i PC.pending⟩ : SysState n).pc =
            Function.update s.pc i PC.pending from rfl,
          Function.update_noteq hji] at hj
        exact hmutex j hj
    · intro _
      exact ⟨i, hl, by simp⟩
  | notifFinish i hl hp =>
    constructor
    · intro j hj
      by_cases hji : j = i
      · subst hji; exact hl
      · rw [show (⟨s.lock, ⟨s.client.conn_sent, none, none⟩,
            Function.update s.pc i PC.cleanup⟩ : SysState n).pc =
            Function.update s.pc i PC.cleanup from rfl,
          Function.update_noteq hji] at hj
        exact hmutex j hj
    · intro h
      simp at h
  | waitFinish i hl hp =>
    constructor
    · intro j hj
      by_cases hji : j = i
      · subst hji; exact hl
      · rw [show (⟨s.lock, ⟨s.client.conn_sent, none, none⟩,
            Function.update s.pc i PC.cleanup⟩ : SysState n).pc =
            Function.update s.pc i PC.cleanup from rfl,
          Function.update_noteq hji] at hj
        exact hmutex j hj
    · intro h
      simp at h
  | release i hl hp =>
    constructor
    · intro j hj
      exfalso
      by_cases hji : j = i
      · subst hji
        rw [show (⟨none, s.client, Function.update s.pc j PC.outside⟩ :
            SysState n).pc = Function.update s.pc j PC.outside from rfl,
          Function.update_same] at hj
        exact hj rfl
      · rw [show (⟨none, s.client, Function.update s.pc i PC.outside⟩ :
            SysState n).pc = Function.update s.pc i PC.outside from rfl,
          Function.update_noteq hji] at hj
        have h2 := hmutex j hj
        rw [hl] at h2
        exact hji (Option.some_injective _ h2).symm
    · intro h
      exfalso
      obtain ⟨k, hk, hkp⟩ := hslot h
      rw [hl] at hk
      have hki : i = k := Option.some_injective _ hk
      subst hki
      rw [hp] at hkp
      exact PC.noConfusion hkp
  | deliver r =>
    obtain ⟨he, _, hf⟩ := response_received_state s.client r
    constructor
    · exact hmutex
    · intro h
      apply hslot
      rcases h with h | h
      · exact Or.inl (he ▸ h)
      · exact Or.inr (fun hc => h (hf.mpr hc))

/-- Every reachable state satisfies the invariant. -/
lemma inv_reachable {n : Nat} {s : SysState n} (h : Reachable n s) : Inv s := by
  induction h with
  | refl => exact inv_init n
  | tail _ hstep ih => exact inv_step ih hstep

/-! ## Claim theorems -/

/-- C8: `format_jsonrpc_msg` produces a mapping containing exactly
`method` (the given name), `jsonrpc` (the literal "2.0"), a `params` key
present iff `params` is not `None` (holding the given value), and an `id`
key present iff the message is not a notification (holding the freshly
generated string token). -/
theorem format_jsonrpc_msg_shape (method : String) (params : Option JVal)
    (notification : Bool) (freshId : String) :
    (format_jsonrpc_msg method params notification freshId).lookup "method"
        = some (JVal.str method) ∧
    (format_jsonrpc_msg method params notification freshId).lookup "jsonrpc"
        = some (JVal.str "2.0") ∧
    (format_jsonrpc_msg method params notification freshId).lookup "params"
        = params ∧
    (format_jsonrpc_msg method params notification freshId).lookup "id"
        = (if notification then none else some (JVal.str freshId)) ∧
    ∀ k v, (k, v) ∈ format_jsonrpc_msg method params notification freshId →
      k = "method" ∨ k = "jsonrpc" ∨ k = "params" ∨ k = "id" := by
  cases params <;> cases notification <;>
    simp [format_jsonrpc_msg, List.lookup] <;>
    (intro k v h; rcases h with h | h | h | h <;> simp_all)

/-- C8 witness: at a concrete non-notification call, the key of a member
entry is one of the four allowed keys. -/
theorem format_jsonrpc_msg_shape_witness :
    "method" = "method" ∨ "method" = "jsonrpc" ∨
      "method" = "params" ∨ "method" = "id" :=
  (format_jsonrpc_msg_shape "ping" none false "id7").2.2.2.2
    "method" (JVal.str "ping") (by simp [format_jsonrpc_msg])

/-- C2: `_response_received` completes the pending future if and only if
the id of the incoming message exactly matches the expected id; in every other
case (no request expected, missing id, wrong id) the message is discarded:
the state is unchanged, nothing is completed, and the function (which is
total) does not raise. -/
theorem response_received_correlation (s : ClientState) (r : Response) :
    ((response_received s r).2 = RecvAction.completed r ↔
      (∃ eid, s.expected_msg_id = some eid ∧ r.id = some eid)) ∧
    ((¬ ∃ eid, s.expected_msg_id = some eid ∧ r.id = some eid) →
      (response_received s r).1 = s ∧
      ∀ x, (response_received s r).2 ≠ RecvAction.completed x) ∧
    ((∃ eid, s.expected_msg_id = some eid ∧ r.id = some eid) →
      (response_received s r).1.fut_comm = s.fut_comm.map (fun _ => some r)) := by
  obtain ⟨cs, em, fc⟩ := s
  obtain ⟨rid, rres, rerr⟩ := r
  cases em with
  | none => simp [response_received]
  | some eid =>
    cases rid with
    | none => simp [response_received]
    | some rid =>
      by_cases hne : rid = eid
      · subst hne
        simp [response_received]
      · simp [response_received, hne, Ne.symm hne]

/-- C2 witness: a response whose id matches the expected id completes the
pending slot. -/
theorem response_received_correlation_witness :
    (response_received ⟨[], some "abc", some none⟩
      ⟨some "abc", some (JVal.num 1), none⟩).2 =
      RecvAction.completed ⟨some "abc", some (JVal.num 1), none⟩ :=
  (response_received_correlation ⟨[], some "abc", some none⟩
    ⟨some "abc", some (JVal.num 1), none⟩).1.mpr ⟨"abc", rfl, rfl⟩

/-- C4: on a matching response, `send_msg` returns `response["result"]`
when present; otherwise raises `CommJsonRpcError` built from
`response["error"]` (type and combined message from `error["data"]` when
present, generic type `"CommJsonRpcError"` otherwise); and raises
`RuntimeError` when the response has neither `result` nor `error`. -/
theorem process_response_cases (resp : Response) :
    (∀ r, resp.result = some r → process_response resp = Except.ok r) ∧
    (resp.result = none → ∀ e d, resp.error = some e → e.data = some d →
      process_response resp = Except.error
        (SendErr.commJsonRpc (e.message ++ ": " ++ d.message) e.code d.type_)) ∧
    (resp.result = none → ∀ e, resp.error = some e → e.data = none →
      process_response resp = Except.error
        (SendErr.commJsonRpc e.message e.code "CommJsonRpcError")) ∧
    (resp.result = none → resp.error = none →
      ∃ m, process_response resp = Except.error (SendErr.runtimeError m)) := by
  obtain ⟨rid, rres, rerr⟩ := resp
  refine ⟨?_, ?_, ?_, ?_⟩
  · intro r hr
    cases rres with
    | none => exact Option.noConfusion hr
    | some v => cases hr; rfl
  · intro hres e d he hd
    cases rres with
    | some v => exact Option.noConfusion hres
    | none =>
      cases rerr with
      | none => exact Option.noConfusion he
      | some e' =>
        cases he
        obtain ⟨ec, emsg, edata⟩ := e
        cases edata with
        | none => exact Option.noConfusion hd
        | some d' => cases hd; rfl
  · intro hres e he hd
    cases rres with
    | some v => exact Option.noConfusion hres
    | none =>
      cases rerr with
      | none => exact Option.noConfusion he
      | some e' =>
        cases he
        obtain ⟨ec, emsg, edata⟩ := e
        cases edata with
        | some d' => exact Option.noConfusion hd
        | none => rfl
  · intro hres herr
    cases rres with
    | some v => exact Option.noConfusion hres
    | none =>
      cases rerr with
      | some e' => exact Option.noConfusion herr
      | none => exact ⟨_, rfl⟩

/-- C4 witness: a response carrying `result` returns that result. -/
theorem process_response_cases_witness :
    process_response ⟨some "1", some (JVal.num 5), none⟩ = Except.ok (JVal.num 5) :=
  (process_response_cases ⟨some "1", some (JVal.num 5), none⟩).1 (JVal.num 5) rfl

/-- C7: a notification `send_msg` call writes the encoded message, returns
`None` immediately, leaves no expected id and no completion slot, and is
independent of whatever the peer later does (the `outcome` argument is
universally quantified and never examined: the call cannot wait or time
out). -/
theorem send_msg_notification (s : ClientState) (method : String)
    (params : Option JVal) (freshId : String) (outcome : WaitOutcome) :
    send_msg s method params true freshId outcome =
      (Except.ok none,
        ⟨s.conn_sent ++ [format_jsonrpc_msg method params true freshId],
          none, none⟩) := rfl

/-- C3: a non-notification `send_msg` call raises `CommTimeoutError` when
the wait timed out, and on every exit path the final state has the
expected id and the completion slot cleared, so that any message delivered
afterwards is treated as unsolicited and discarded. -/
theorem send_msg_timeout_clears (s : ClientState) (method : String)
    (params : Option JVal) (freshId : String) (outcome : WaitOutcome) :
    (outcome = WaitOutcome.timedOut →
      (send_msg s method params false freshId outcome).1 = Except.error
        (SendErr.commTimeout
          ("Timeout while waiting for response to message: " ++ method))) ∧
    (send_msg s method params false freshId outcome).2.expected_msg_id = none ∧
    (send_msg s method params false freshId outcome).2.fut_comm = none ∧
    (∀ r, response_received (send_msg s method params false freshId outcome).2 r =
      ((send_msg s method params false freshId outcome).2,
        RecvAction.ignored_unsolicited)) := by
  cases outcome with
  | timedOut =>
    refine ⟨fun _ => rfl, rfl, rfl, fun r => rfl⟩
  | response r =>
    refine ⟨fun h => WaitOutcome.noConfusion h, rfl, rfl, fun r => rfl⟩

/-- C3 witness: a timed-out call at a concrete input raises
`CommTimeoutError` and leaves the slot cleared. -/
theorem send_msg_timeout_clears_witness :
    (send_msg ⟨[], none, none⟩ "ping" none false "id1" WaitOutcome.timedOut).1 =
      Except.error (SendErr.commTimeout
        ("Timeout while waiting for response to message: " ++ "ping")) :=
  (send_msg_timeout_clears ⟨[], none, none⟩ "ping" none "id1"
    WaitOutcome.timedOut).1 rfl

/-- C1: in every reachable interleaving of concurrent `send_msg` callers,
at most one task is awaiting a response (inside the send-wait cycle) at
any instant; whenever `_expected_msg_id` or `_fut_comm` is set, the
`_lock_comm` gate is held by the single awaiting task; and a task that has
run the `finally` block but not yet released the gate sees both fields
already cleared (they are cleared before the gate is released). -/
theorem send_msg_single_pending (n : Nat) (s : SysState n)
    (h : Reachable n s) :
    (∀ i j, s.pc i ≠ PC.outside → s.pc j ≠ PC.outside → i = j) ∧
    ((s.client.expected_msg_id ≠ none ∨ s.client.fut_comm ≠ none) →
      ∃ i, s.lock = some i ∧ s.pc i = PC.pending) ∧
    (∀ i, s.pc i = PC.cleanup →
      s.client.expected_msg_id = none ∧ s.client.fut_comm = none) := by
  obtain ⟨hmutex, hslot⟩ := inv_reachable h
  refine ⟨?_, hslot, ?_⟩
  · intro i j hi hj
    have h1 := hmutex i hi
    have h2 := hmutex j hj
    rw [h1] at h2
    exact Option.some_injective _ h2
  · intro i hcl
    have hlocki := hmutex i (by rw [hcl]; exact fun hx => PC.noConfusion hx)
    have key : ¬ (s.client.expected_msg_id ≠ none ∨ s.client.fut_comm ≠ none) := by
      intro hset
      obtain ⟨j, hj1, hj2⟩ := hslot hset
      rw [hlocki] at hj1
      have hij : i = j := Option.some_injective _ hj1
      subst hij
      rw [hcl] at hj2
      exact PC.noConfusion hj2
    push_neg at key
    exact key

/-- A concrete reachable state used to witness C1: task 0 of two caller
tasks has acquired the gate. -/
def s_acq : SysState 2 :=
  ⟨some 0, (initState 2).client, Function.update (initState 2).pc 0 PC.entered⟩

/-- A concrete reachable state used to witness C1: task 0 has set the
expected id and the pending future and is awaiting the response. -/
def s_pend : SysState 2 :=
  ⟨s_acq.lock, ⟨s_acq.client.conn_sent, some "m1", some none⟩,
    Function.update s_acq.pc 0 PC.pending⟩

lemma reach_s_pend : Reachable 2 s_pend :=
  Relation.ReflTransGen.tail
    (Relation.ReflTransGen.single (Step.acquire (initState 2) 0 rfl rfl))
    (Step.setSlot s_acq 0 "m1" rfl (by simp [s_acq]))

/-- C1 witness: in the concrete reachable state where the expected id is
set, the gate is held by a task at `pending`. -/
theorem send_msg_single_pending_witness :
    Reachable 2 s_pend ∧ ∃ i, s_pend.lock = some i ∧ s_pend.pc i = PC.pending :=
  ⟨reach_s_pend,
    (send_msg_single_pending 2 s_pend reach_s_pend).2.1
      (Or.inl (by simp [s_pend]))⟩

/-- C6: when any failure occurs during the ZMQ exchange, `send_message`
closes and recreates the socket against the same stored address before
returning, and then raises `CommTimeoutError` when the instance was
constructed with `raise_timeout_exceptions=True`, or returns
`{"success": False, "msg": <non-empty text>}` when constructed with
`raise_timeout_exceptions=False`. -/
theorem send_message_failure (s : ZmqState) (method : String)
    (params : Option JVal) (re : Bool) (ex : String) :
    (send_message s method params re (CommOutcome.failure ex)).2.socket_gen
        = s.socket_gen + 1 ∧
    (send_message s method params re (CommOutcome.failure ex)).2.socket_addr
        = s.zmq_server_address ∧
    (send_message s method params re (CommOutcome.failure ex)).2.zmq_server_address
        = s.zmq_server_address ∧
    (s.raise_timeout_exceptions = true →
      (send_message s method params re (CommOutcome.failure ex)).1 =
        Except.error (SendErr.commTimeout ("ZMQ communication error: " ++ ex))) ∧
    (s.raise_timeout_exceptions = false →
      (send_message s method params re (CommOutcome.failure ex)).1 =
        Except.ok (JVal.obj [("success", JVal.bool false),
          ("msg", JVal.str ("ZMQ communication error: " ++ ex))]) ∧
      0 < ("ZMQ communication error: " ++ ex).length) := by
  have hlen : 0 < ("ZMQ communication error: " ++ ex).length := by
    rw [String.length_append]
    have h25 : 0 < "ZMQ communication error: ".length := by decide
    omega
  cases hflag : s.raise_timeout_exceptions with
  | true =>
    refine ⟨?_, ?_, ?_, fun _ => ?_, fun hc => Bool.noConfusion hc⟩ <;>
      simp [send_message, zmq_socket_restart, hflag]
  | false =>
    refine ⟨?_, ?_, ?_, fun hc => Bool.noConfusion hc,
        fun _ => ⟨?_, hlen⟩⟩ <;>
      simp [send_message, zmq_socket_restart, hflag]

/-- C6 witness: a concrete failing exchange with the raising policy
recreates the socket and raises `CommTimeoutError`. -/
theorem send_message_failure_witness :
    (send_message ⟨"tcp://localhost:5555", true, 0, "tcp://localhost:5555"⟩
      "ping" none false (CommOutcome.failure "timeout")).1 =
      Except.error (SendErr.commTimeout ("ZMQ communication error: " ++ "timeout")) :=
  ((send_message_failure ⟨"tcp://localhost:5555", true, 0, "tcp://localhost:5555"⟩
    "ping" none false "timeout").2.2.2.1) rfl

/-- C9: the per-call `raise_exceptions` keyword of `send_message` is never
read by the body: the result is identical for every value of the per-call
argument, the raise-or-return policy being fixed by the constructor-time
`raise_timeout_exceptions` flag alone. -/
theorem send_message_raise_exceptions_unused (s : ZmqState) (method : String)
    (params : Option JVal) (r₁ r₂ : Bool) (outcome : CommOutcome) :
    send_message s method params r₁ outcome =
      send_message s method params r₂ outcome := rfl

/-- C5 counterexample: at a concrete input where a failure occurs during
the one-shot exchange (a ZMQ timeout absorbed by the non-raising policy
of the transient client), `zmq_single_request` returns a non-null
message and an empty error text — refuting the claim that every failure
during the exchange yields `message = None` with non-empty error text. -/
theorem zmq_single_request_failure_counterexample :
    (zmq_single_request "status" none none
      (Except.ok (CommOutcome.failure "timeout"))).1 ≠ none ∧
    ¬ (zmq_single_request "status" none none
      (Except.ok (CommOutcome.failure "timeout"))).2 ≠ "" := by
  have h : zmq_single_request "status" none none
      (Except.ok (CommOutcome.failure "timeout")) =
      (some (JVal.obj [("success", JVal.bool false),
        ("msg", JVal.str ("ZMQ communication error: " ++ "timeout"))]), "") := rfl
  rw [h]
  exact ⟨fun hc => Option.noConfusion hc, fun hc => hc rfl⟩

/-- C5 (amended): `zmq_single_request` never raises (it is a total
function); when an exception escapes the event-loop run it returns
`(None, str(ex))`; when the exchange completes — including a
communication failure absorbed into the structured failure value by the
default non-raising policy of the transient client — it returns a non-null
message with an empty error text, the absorbed failure carrying a
non-empty `msg` field inside the returned message. -/
theorem zmq_single_request_amended (method : String) (params : Option JVal)
    (addr : Option String) (run : Except String CommOutcome) :
    (∀ ex, run = Except.error ex →
      zmq_single_request method params addr run = (none, ex)) ∧
    (∀ outcome, run = Except.ok outcome →
      (zmq_single_request method params addr run).2 = "" ∧
      (zmq_single_request method params addr run).1 ≠ none) ∧
    (∀ ex, run = Except.ok (CommOutcome.failure ex) →
      (zmq_single_request method params addr run).1 =
        some (JVal.obj [("success", JVal.bool false),
          ("msg", JVal.str ("ZMQ communication error: " ++ ex))]) ∧
      0 < ("ZMQ communication error: " ++ ex).length) := by
  refine ⟨?_, ?_, ?_⟩
  · intro ex hr
    subst hr
    rfl
  · intro outcome hr
    subst hr
    cases outcome with
    | reply m => exact ⟨rfl, fun hc => Option.noConfusion hc⟩
    | failure ex => exact ⟨rfl, fun hc => Option.noConfusion hc⟩
  · intro ex hr
    subst hr
    refine ⟨rfl, ?_⟩
    rw [String.length_append]
    have h25 : 0 < "ZMQ communication error: ".length := by decide
    omega

/-- C5 witness: an exception escaping the event-loop run yields a null
message and the text of the exception. -/
theorem zmq_single_request_amended_witness :
    zmq_single_request "status" none none (Except.error "connect failed") =
      (none, "connect failed") :=
  (zmq_single_request_amended "status" none none
    (Except.error "connect failed")).1 "connect failed" rfl

/-- C10: `zmq_single_request` builds its transient client with the
default non-raising policy, so a completed exchange — a server reply or a
communication failure absorbed into `{"success": False, "msg": ...}` —
comes back as the message component with an empty error text, and the
`(None, error text)` outcome occurs only when an exception escapes the
event-loop run. -/
theorem zmq_single_request_default_policy (method : String)
    (params : Option JVal) (addr : Option String) :
    (∀ ex, zmq_single_request method params addr
        (Except.ok (CommOutcome.failure ex)) =
      (some (JVal.obj [("success", JVal.bool false),
        ("msg", JVal.str ("ZMQ communication error: " ++ ex))]), "")) ∧
    (∀ m, zmq_single_request method params addr
        (Except.ok (CommOutcome.reply m)) = (some m, "")) ∧
    (∀ run, (zmq_single_request method params addr run).1 = none →
      ∃ ex, run = Except.error ex ∧
        (zmq_single_request method params addr run).2 = ex) := by
  refine ⟨fun ex => rfl, fun m => rfl, ?_⟩
  intro run hnone
  cases run with
  | error ex => exact ⟨ex, rfl, rfl⟩
  | ok outcome =>
    exfalso
    cases outcome with
    | reply m => exact Option.noConfusion hnone
    | failure ex => exact Option.noConfusion hnone

/-- C10 witness: a null message at a concrete input implies the run ended
with an escaping exception. -/
theorem zmq_single_request_default_policy_witness :
    ∃ ex, (Except.error "boom" : Except String CommOutcome) = Except.error ex ∧
      (zmq_single_request "status" none none (Except.error "boom")).2 = ex :=
  (zmq_single_request_default_policy "status" none none).2.2
    (Except.error "boom") rfl

end Comms
